import Mathlib

/-!
Verification of the olocr simulation-monitoring repository: a shallow
embedding of `sim_watcher_influx.py` (ingestion watcher) and
`thresholdtest.py` (threshold rule engine), with theorems settling the
specification claims about them.

Machine conventions: Python floats are modelled as `ℚ` (the traces carry
short decimal literals), Python ints as `ℤ`, Python dicts as ordered
association lists, the InfluxDB client as an explicit write log plus a
success oracle, and `datetime` values as integer seconds.
-/

deriving instance DecidableEq for Except

namespace SimWatch

/-- Is `p` a prelude of `t` (character-wise)?  Building block for Python's
substring operator. -/
def listPre : List Char → List Char → Bool
  | [], _ => true
  | _ :: _, [] => false
  | a :: as, b :: bs => a == b && listPre as bs

/-- Does `p` occur contiguously inside `t`?  Embeds Python's `p in t`. -/
def listSub (p : List Char) : List Char → Bool
  | [] => listPre p []
  | c :: ts => listPre p (c :: ts) || listSub p ts

/-- Python's `needle in hay` substring test on strings. -/
def strContains (hay needle : String) : Bool :=
  listSub needle.data hay.data

/-- Value of a list of decimal digit characters, most significant first. -/
def natFromDigits (cs : List Char) : ℕ :=
  cs.foldl (fun a c => a * 10 + (c.toNat - 48)) 0

/-- All characters are decimal digits. -/
def allDigits (cs : List Char) : Bool :=
  cs.all Char.isDigit

/-- Python `str.strip()` on a character list. -/
def trimChars (cs : List Char) : List Char :=
  ((cs.dropWhile Char.isWhitespace).reverse.dropWhile Char.isWhitespace).reverse

/-- Python `str.strip()`. -/
def trimStr (s : String) : String :=
  String.mk (trimChars s.data)

/-- Python `str.lower()` (ASCII, which covers every name the watcher
sees). -/
def lowerStr (s : String) : String :=
  String.mk (s.data.map Char.toLower)

/-- Python `str.replace(old, new)` for single characters. -/
def replaceChar (oldC newC : Char) (s : String) : String :=
  String.mk (s.data.map (fun c => if c = oldC then newC else c))

/-- Remove every occurrence of the (non-empty) pattern, scanning left to
right; one unit of fuel per consumed character, so the initial length
suffices. -/
def stripSubFuel (pat : List Char) : ℕ → List Char → List Char
  | 0, cs => cs
  | _ + 1, [] => []
  | fuel + 1, c :: rest =>
      if listPre pat (c :: rest) then stripSubFuel pat fuel ((c :: rest).drop pat.length)
      else c :: stripSubFuel pat fuel rest

/-- Python `s.replace(pat, '')` for a non-empty `pat`. -/
def removeSubStr (s pat : String) : String :=
  String.mk (stripSubFuel pat.data s.data.length s.data)

/-- Python `str.split(sep)` for a single-character separator. -/
def splitOnChar (sep : Char) : List Char → List (List Char)
  | [] => [[]]
  | c :: rest =>
      match splitOnChar sep rest with
      | [] => [[c]]
      | g :: gs => if c = sep then [] :: g :: gs else (c :: g) :: gs

/-- Core of Python `float()` on an already sign-stripped character list:
an optional integer part, an optional single dot, an optional fractional
part, at least one digit overall.  (The decimal subset used by the trace
files; exponents and inf/nan never occur there.) -/
def parseFloatCore (cs : List Char) : Option ℚ :=
  let intPart := cs.takeWhile (fun c => c ≠ '.')
  let rest := cs.dropWhile (fun c => c ≠ '.')
  match rest with
  | [] =>
      if cs ≠ [] && allDigits cs then some ((natFromDigits cs : ℤ) : ℚ) else none
  | _ :: frac =>
      if allDigits intPart && allDigits frac && (intPart ≠ [] || frac ≠ []) &&
          !frac.any (fun c => c = '.') then
        some (Rat.divInt (natFromDigits intPart * 10 ^ frac.length + natFromDigits frac)
          (10 ^ frac.length))
      else none

/-- Python `float(s)`: strip surrounding whitespace, optional sign, then
the decimal core; `None` when `float` would raise `ValueError`. -/
def parseFloat? (s : String) : Option ℚ :=
  match trimChars s.data with
  | '-' :: rest => (parseFloatCore rest).map Neg.neg
  | '+' :: rest => parseFloatCore rest
  | cs => parseFloatCore cs

/-- Python `int(s)` on decimal text: strip whitespace, optional sign,
nonempty digit run; no dot allowed. -/
def parseInt? (s : String) : Option ℤ :=
  match trimChars s.data with
  | '-' :: rest => if rest ≠ [] && allDigits rest then some (-(natFromDigits rest : ℤ)) else none
  | '+' :: rest => if rest ≠ [] && allDigits rest then some ((natFromDigits rest : ℤ)) else none
  | cs => if cs ≠ [] && allDigits cs then some ((natFromDigits cs : ℤ)) else none

/-- Python `int(x)` on a float value: truncation toward zero. -/
def truncInt (q : ℚ) : ℤ :=
  if 0 ≤ q then ⌊q⌋ else ⌈q⌉

/-- `int(timestamp * 1e9)`, written over the numerator and denominator
(`q * 10^9 = (q.num * 10^9) / q.den`; see `nsTime_eq`). -/
def nsTime (ts : ℚ) : ℤ :=
  truncInt (Rat.divInt (ts.num * 1000000000) ts.den)

/-- `value * 0.1`, written over the numerator and denominator
(`q * (1/10) = q.num / (q.den * 10)`; see `tenth_eq`). -/
def tenth (q : ℚ) : ℚ :=
  Rat.divInt q.num (q.den * 10)

/-- `METRIC_MAPPING` from `sim_watcher_influx.py`: the fixed ordered
raw-substring → canonical-name table (Python dicts preserve insertion
order). -/
def METRIC_MAPPING : List (String × String) :=
  [ ("RRC.ConnMean", "rrc_connection_time"),
    ("numActiveUes", "active_ue_count"),
    ("sameCellSinr", "sinr_serving"),
    ("sameCellSinr3gppencoded", "sinr_serving_3gpp"),
    ("L3 serving SINR", "sinr_serving_l3"),
    ("L3 serving SINR 3gpp", "sinr_serving_l3_3gpp"),
    ("L3 neigh SINR", "sinr_neighbor_l3"),
    ("L3 neigh SINR 3gpp", "sinr_neighbor_l3_3gpp"),
    ("DRB.EstabSucc.5QI.UEID", "drb_established_count"),
    ("DRB.RelActNbr.5QI.UEID", "drb_released_count"),
    ("DRB.PdcpSduDelayDl", "pdcp_delay_downlink"),
    ("txPdcpPduLteRlc", "pdcp_tx_count"),
    ("rxPdcpPduLteRlc", "pdcp_rx_count"),
    ("eNB id", "enb_id"),
    ("L3 serving Id", "serving_cell_id"),
    ("L3 neigh Id", "neighbor_cell_id") ]

/-- Drop characters up to and including the first `)`; `none` when no
`)` follows (then the regex `\([^)]*\)` has no match starting here). -/
def dropThroughClose : List Char → Option (List Char)
  | [] => none
  | c :: rest => if c = ')' then some rest else dropThroughClose rest

/-- Body of `removeParens` on explicit fuel; one unit of fuel is spent per
consumed leading character, so `cs.length` units always suffice. -/
def removeParensFuel : ℕ → List Char → List Char
  | 0, cs => cs
  | _ + 1, [] => []
  | fuel + 1, c :: rest =>
      if c = '(' then
        match dropThroughClose rest with
        | some rest2 => removeParensFuel fuel rest2
        | none => '(' :: removeParensFuel fuel rest
      else
        c :: removeParensFuel fuel rest

/-- `re.sub(r'\([^)]*\)', '', field_name)`: remove each parenthesised
group, scanning left to right; an unmatched `(` is kept verbatim. -/
def removeParens (cs : List Char) : List Char :=
  removeParensFuel cs.length cs

/-- `.lower().replace(' ', '_').replace('.', '_')`. -/
def slugify (s : String) : String :=
  replaceChar '.' '_' (replaceChar ' ' '_' (lowerStr s))

/-- `_get_metric_type`: classify a canonical metric name by substring
tests in the source's fixed priority order. -/
def get_metric_type (metricName : String) : String :=
  if strContains metricName "sinr" then "radio_quality"
  else if strContains metricName "delay" || strContains metricName "latency" then "latency"
  else if strContains metricName "drb" then "bearer"
  else if strContains metricName "rrc" then "connection"
  else if strContains metricName "pdcp" then "throughput"
  else if strContains metricName "count" || strContains metricName "ue" then "statistics"
  else "other"

/-- The `for old_name, new_name in METRIC_MAPPING.items()` scan: first
entry whose raw substring occurs in the field name wins. -/
def findMapped : List (String × String) → String → Option String
  | [], _ => none
  | (oldN, newN) :: rest, fieldName =>
      if strContains fieldName oldN then some newN else findMapped rest fieldName

/-- `_parse_metric_name`: mapping-table scan on the raw field name, else
the slug of the field name with parenthesised groups removed and
surrounding whitespace stripped; paired with its category. -/
def parse_metric_name (fieldName : String) : String × String :=
  let cleanName := trimStr (String.mk (removeParens fieldName.data))
  match findMapped METRIC_MAPPING fieldName with
  | some newName => (newName, get_metric_type newName)
  | none =>
      let metricName := slugify cleanName
      (metricName, get_metric_type metricName)

/-- `re.search(base ++ '[2-5]\.txt', filename)`: the character class has
four concrete expansions, so the search is four substring tests. -/
def hasCellTxt (filename base : String) : Bool :=
  strContains filename (base ++ "2.txt") || strContains filename (base ++ "3.txt") ||
  strContains filename (base ++ "4.txt") || strContains filename (base ++ "5.txt")

/-- `_get_file_type`: ordinal of the first matching filename regex, `-1`
when none matches. -/
def get_file_type (filename : String) : ℤ :=
  if hasCellTxt filename "cu-up-cell-" then 0
  else if hasCellTxt filename "cu-cp-cell-" then 1
  else if hasCellTxt filename "du-cell-" then 2
  else if strContains filename "cu-up-cell-1.txt" then 3
  else if strContains filename "cu-cp-cell-1.txt" then 4
  else -1

/-- `_determine_layer`: `layer_map.get(file_type, 'unknown')`. -/
def determine_layer (fileType : ℤ) : String :=
  if fileType = 0 then "cu_up"
  else if fileType = 1 then "cu_cp"
  else if fileType = 2 then "du"
  else if fileType = 3 then "cu_up"
  else if fileType = 4 then "cu_cp"
  else "unknown"

/-- `filename.split('-')[-1].replace('.txt', '')`. -/
def cellIdOf (filename : String) : String :=
  removeSubStr (String.mk ((splitOnChar '-' filename.data).getLastD [])) ".txt"

/-- `os.path.basename`. -/
def basename (p : String) : String :=
  String.mk ((splitOnChar '/' p.data).getLastD [])

/-- An InfluxDB point as built by `_create_improved_point` /
`_send_positions_improved`: measurement, tags (in dict insertion order),
time in nanoseconds, field values. -/
structure Point where
  measurement : String
  tags : List (String × String)
  time : ℤ
  fieldVals : List (String × ℚ)
deriving DecidableEq, Repr

/-- A CSV row from `csv.DictReader`: column name / cell text pairs in
header order (`reader.fieldnames` order). -/
abbrev Row := List (String × String)

/-- `row[name]` lookup (`none` embeds a `KeyError`). -/
def rowGet? (row : Row) (name : String) : Option String :=
  (List.find? (fun p => p.1 == name) row).map Prod.snd

/-- `_create_improved_point`, translated clause by clause. -/
def create_improved_point (metricName metricType : String) (value timestamp : ℚ)
    (ueId cellId : String) (neighborCellId : Option String) (layer : String)
    (isCellMetric : Bool) : Point :=
  let tags0 := [("metric_type", metricType)]
  let tags1 :=
    if isCellMetric then tags0 ++ [("cell_id", cellId), ("scope", "cell")]
    else
      tags0 ++ [("ue_id", ueId), ("cell_id", cellId), ("scope", "ue")] ++
        (if layer ≠ "" then [("layer", layer)] else [])
  let tags2 :=
    match neighborCellId with
    | some n => if n ≠ "" then tags1 ++ [("neighbor_cell_id", n)] else tags1
    | none => tags1
  ⟨metricName, tags2, nsTime timestamp, [("value", value)]⟩

/-- The errors `on_modified` can raise while handling one metric row. -/
inductive ProcError where
  | missingColumn (name : String)
  | badFloat (s : String)
  | badInt (s : String)
  | writeFailed
deriving DecidableEq, Repr

/-- The per-row column loop of `on_modified` (lines 160-190): skip empty
cells, `float()` each remaining cell (raising on malformed text), apply
the pdcp-delay rescale, track the neighbour-cell context, and emit one
point per column via `_create_improved_point`. -/
def buildPoints (timestamp : ℚ) (ueImsi : ℤ) (cellId layer : String) :
    List (String × String) → Option String → Except ProcError (List Point)
  | [], _ => .ok []
  | (columnName, cell) :: rest, curNeigh =>
      if cell = "" then buildPoints timestamp ueImsi cellId layer rest curNeigh
      else
        match parseFloat? cell with
        | none => .error (.badFloat cell)
        | some v0 =>
            let mn := parse_metric_name columnName
            let v := if strContains mn.1 "pdcp_delay" || strContains columnName "PdcpSduDelayDl"
              then tenth v0 else v0
            let curNeigh2 :=
              if strContains mn.1 "neighbor_cell_id" || strContains columnName "L3 neigh Id"
              then some (toString (truncInt v)) else curNeigh
            let p := create_improved_point mn.1 mn.2 v timestamp (toString ueImsi) cellId
              (if strContains mn.1 "neighbor" then curNeigh2 else none) layer
              (!strContains columnName "UEID" && !strContains columnName "L3")
            (buildPoints timestamp ueImsi cellId layer rest curNeigh2).map (fun ps => p :: ps)

/-- The dedup key `(timestamp, ue_imsi, file_type)`. -/
abbrev DedupKey := ℚ × ℤ × ℤ

/-- Outcome of (part of) one `on_modified` call: the `consumed_keys` set
after it, the batches handed to `client.write_points` in order, and the
exception that escaped, if any.  Mutations made before an exception
persist, as they do on the Python instance state. -/
structure RunOut where
  consumed : Finset DedupKey
  writes : List (List Point)
  err : Option ProcError
deriving DecidableEq

/-- The dedup key `on_modified` computes for a row of file `bn` (lines
140-151), `none` when parsing the mandatory fields raises first. -/
def rowKey? (bn : String) (row : Row) : Option DedupKey :=
  match rowGet? row "timestamp" with
  | none => none
  | some tsS =>
      match parseFloat? tsS with
      | none => none
      | some ts =>
          match rowGet? row "ueImsiComplete" with
          | none => none
          | some ueS => (parseInt? ueS).map (fun ue => (ts, ue, get_file_type bn))

/-- The point batch `on_modified` builds for a row of file `bn`,
independent of dedup state. -/
def rowPointsOf (bn : String) (row : Row) : Except ProcError (List Point) :=
  match rowGet? row "timestamp" with
  | none => .error (.missingColumn "timestamp")
  | some tsS =>
      match parseFloat? tsS with
      | none => .error (.badFloat tsS)
      | some ts =>
          match rowGet? row "ueImsiComplete" with
          | none => .error (.missingColumn "ueImsiComplete")
          | some ueS =>
              match parseInt? ueS with
              | none => .error (.badInt ueS)
              | some ue =>
                  buildPoints ts ue (cellIdOf bn) (determine_layer (get_file_type bn)) row none

/-- One iteration of the `for row in reader` loop of `on_modified` for a
metric file with basename `bn`: parse the mandatory fields, compute the
dedup key, skip already-consumed keys, build the batch, write it (the
head of `oracle` decides whether `write_points` succeeds; an exhausted
oracle means success), and only then mark the key consumed.  Returns the
row outcome and the unconsumed rest of the oracle. -/
def stepRow (bn : String) (consumed : Finset DedupKey) (row : Row) (oracle : List Bool) :
    RunOut × List Bool :=
  match rowGet? row "timestamp" with
  | none => (⟨consumed, [], some (.missingColumn "timestamp")⟩, oracle)
  | some tsS =>
      match parseFloat? tsS with
      | none => (⟨consumed, [], some (.badFloat tsS)⟩, oracle)
      | some ts =>
          match rowGet? row "ueImsiComplete" with
          | none => (⟨consumed, [], some (.missingColumn "ueImsiComplete")⟩, oracle)
          | some ueS =>
              match parseInt? ueS with
              | none => (⟨consumed, [], some (.badInt ueS)⟩, oracle)
              | some ue =>
                  let key : DedupKey := (ts, ue, get_file_type bn)
                  if key ∈ consumed then (⟨consumed, [], none⟩, oracle)
                  else
                    match buildPoints ts ue (cellIdOf bn) (determine_layer (get_file_type bn))
                        row none with
                    | .error e => (⟨consumed, [], some e⟩, oracle)
                    | .ok pts =>
                        if pts = [] then (⟨consumed, [], none⟩, oracle)
                        else if oracle.headD true then
                          (⟨insert key consumed, [pts], none⟩, oracle.tail)
                        else (⟨consumed, [], some .writeFailed⟩, oracle.tail)

/-- The whole `for row in reader` loop for a metric file: rows in order,
stopping at the first escaping exception. -/
def runRows (bn : String) : Finset DedupKey → List Row → List Bool → RunOut
  | consumed, [], _ => ⟨consumed, [], none⟩
  | consumed, row :: rest, oracle =>
      let so := stepRow bn consumed row oracle
      match so.1.err with
      | some e => ⟨so.1.consumed, so.1.writes, some e⟩
      | none =>
          let res := runRows bn so.1.consumed rest so.2
          ⟨res.consumed, so.1.writes ++ res.writes, res.err⟩

/-- One row of `_send_positions_improved`: `none` when the row is skipped
(missing or falsy mandatory field, or any exception inside the `try`),
otherwise the `ue_position` point. -/
def posPointOfRow (row : Row) : Option Point :=
  match rowGet? row "timestamp", rowGet? row "ueImsiComplete" with
  | some tsS, some ueS =>
      if tsS = "" || ueS = "" then none
      else
        match parseFloat? tsS with
        | none => none
        | some ts =>
            match rowGet? row "position_x" with
            | none => none
            | some xS =>
                match parseFloat? xS with
                | none => none
                | some x =>
                    match rowGet? row "position_y" with
                    | none => none
                    | some yS =>
                        match parseFloat? yS with
                        | none => none
                        | some y =>
                            some ⟨"ue_position",
                              [("ue_id", trimStr ueS), ("metric_type", "location")],
                              nsTime ts, [("x", x), ("y", y)]⟩
  | _, _ => none

/-- `on_modified` for a file-change event: dispatch on the basename; the
position path never touches `consumed_keys`, the metric path is
`runRows`. -/
def on_modified (consumed : Finset DedupKey) (path : String) (rows : List Row)
    (oracle : List Bool) : RunOut :=
  let bn := basename path
  if bn = "ue_positions.txt" then
    let pts := rows.filterMap posPointOfRow
    if pts = [] then ⟨consumed, [], none⟩
    else if oracle.headD true then ⟨consumed, [pts], none⟩
    else ⟨consumed, [], some .writeFailed⟩
  else runRows bn consumed rows oracle

end SimWatch

namespace Threshold

/-- `ComparisonType` from `thresholdtest.py`. -/
inductive ComparisonType where
  | gt | lt | eq | ge | le
deriving DecidableEq, Repr

/-- `AlertLevel` from `thresholdtest.py`. -/
inductive AlertLevel where
  | info | warning | critical
deriving DecidableEq, Repr

/-- `ThresholdRule`, with floats as `ℚ` and the int fields as `ℤ`. -/
structure ThresholdRule where
  name : String
  measurementPattern : String
  threshold : ℚ
  comparison : ComparisonType
  level : AlertLevel
  messageTemplate : String
  cooldownSeconds : ℤ
  consecutiveViolations : ℤ
  enabled : Bool
deriving DecidableEq, Repr

/-- An `Alert` as constructed in `check_rule`; the rendered message
string (pure `str.format` templating over these same components) is not
re-modelled. -/
structure Alert where
  time : ℤ
  ruleName : String
  level : AlertLevel
  measurement : String
  currentValue : ℚ
  threshold : ℚ
  tags : List (String × String)
deriving DecidableEq, Repr

/-- The two state dicts of `ThresholdMonitor` (`last_alert_time` and
`violation_count`), as insertion-ordered association lists; `datetime`
values are integer seconds. -/
structure MonState where
  lastAlertTime : List (String × ℤ)
  violationCount : List (String × ℤ)
deriving DecidableEq, Repr

/-- `d[k]` / `d.get(k)` on an association list. -/
def lookupA {α : Type} (l : List (String × α)) (k : String) : Option α :=
  (List.find? (fun p => p.1 == k) l).map Prod.snd

/-- `d[k] = v` on an association list: replace in place, else append
(Python dicts keep insertion order). -/
def setA {α : Type} : List (String × α) → String → α → List (String × α)
  | [], k, v => [(k, v)]
  | (k2, v2) :: rest, k, v =>
      if k2 = k then (k, v) :: rest else (k2, v2) :: setA rest k v

/-- The if/elif comparison chain of `check_rule` (lines 170-180). -/
def violated (c : ComparisonType) (value threshold : ℚ) : Bool :=
  match c with
  | .gt => decide (threshold < value)
  | .lt => decide (value < threshold)
  | .ge => decide (threshold ≤ value)
  | .le => decide (value ≤ threshold)
  | .eq => value == threshold

/-- Python's `timedelta.seconds` for a whole-second delta: the seconds
component after normalisation, i.e. the delta modulo 86400, always in
`[0, 86400)` (whole days are NOT included — this is not
`total_seconds()`). -/
def tdSeconds (d : ℤ) : ℤ := d % 86400

/-- One observation step of `check_rule` (lines 164-218) for a point of
series (`measurement`, `tags`) with value `value` at clock time `now`:
returns the updated monitor state and the alert appended to `alerts`, if
one fired. -/
def obsStep (rule : ThresholdRule) (st : MonState) (measurement : String)
    (tags : List (String × String)) (value : ℚ) (now : ℤ) : MonState × Option Alert :=
  if violated rule.comparison value rule.threshold then
    let key := rule.name ++ ":" ++ measurement
    let c := (lookupA st.violationCount key).getD 0 + 1
    let st1 : MonState := ⟨st.lastAlertTime, setA st.violationCount key c⟩
    if rule.consecutiveViolations ≤ c then
      match lookupA st1.lastAlertTime key with
      | none =>
          (⟨setA st1.lastAlertTime key now, setA st1.violationCount key 0⟩,
           some ⟨now, rule.name, rule.level, measurement, value, rule.threshold, tags⟩)
      | some last =>
          if rule.cooldownSeconds ≤ tdSeconds (now - last) then
            (⟨setA st1.lastAlertTime key now, setA st1.violationCount key 0⟩,
             some ⟨now, rule.name, rule.level, measurement, value, rule.threshold, tags⟩)
          else (st1, none)
    else (st1, none)
  else
    let key := rule.name ++ ":" ++ measurement
    (⟨st.lastAlertTime, setA st.violationCount key 0⟩, none)

/-- `check_rule` over the series the store query returned for one poll
cycle: a disabled rule returns no alerts and leaves the state alone;
otherwise every observed point is folded through `obsStep` in iteration
order, collecting the fired alerts. -/
def check_rule (rule : ThresholdRule) (st : MonState)
    (observations : List (String × List (String × String) × ℚ)) (now : ℤ) :
    MonState × List Alert :=
  if !rule.enabled then (st, [])
  else
    observations.foldl
      (fun acc obs =>
        let so := obsStep rule acc.1 obs.1 obs.2.1 obs.2.2 now
        (so.1, acc.2 ++ so.2.toList))
      (st, [])

end Threshold

namespace SimWatch

/-- Fallback of the Canonicalizer claim taken at its word: first
substring match in the ordered table, else the normalised slug
(lowercase, spaces and dots to underscores) of the raw column name — with
no parenthesised-group removal. -/
def specSlugFallback (fieldName : String) : String :=
  match List.find? (fun p => strContains fieldName p.1) METRIC_MAPPING with
  | some p => p.2
  | none => slugify fieldName

/-- The Canonicalizer claim amended to match the source: the fallback is
the slug of the field name after removing parenthesised groups and
stripping surrounding whitespace.  Stated via `List.find?` so that the
equivalence with the source's recursive scan is a real proof. -/
def specParseAmended (fieldName : String) : String × String :=
  let canon :=
    match List.find? (fun p => strContains fieldName p.1) METRIC_MAPPING with
    | some p => p.2
    | none => slugify (trimStr (String.mk (removeParens fieldName.data)))
  (canon, get_metric_type canon)

/-- A minimal well-formed metric row: both mandatory columns, nothing
else. -/
def sampleRow : Row := [("timestamp", "1"), ("ueImsiComplete", "7")]

/-- The dedup key of `sampleRow` in a `cu-up-cell-2.txt` event. -/
def sampleKey : DedupKey := ((1 : ℚ), (7 : ℤ), (0 : ℤ))

/-- Five populated columns, the fourth malformed (non-numeric,
non-empty). -/
def c5row : Row :=
  [("timestamp", "1"), ("ueImsiComplete", "7"), ("a", "2"), ("b", "abc"), ("c", "3")]

/-- A row containing a serving-SINR column. -/
def c7row : Row :=
  [("timestamp", "1"), ("ueImsiComplete", "7"), ("L3 serving SINR (dB)", "5")]

/-- A valid position-file row. -/
def posRow : Row :=
  [("timestamp", "1"), ("ueImsiComplete", " 9 "), ("position_x", "1.5"), ("position_y", "-2")]

/-- The point `_send_positions_improved` builds from `posRow`. -/
def posRowPoint : Point :=
  ⟨"ue_position", [("ue_id", "9"), ("metric_type", "location")], 1000000000,
    [("x", Rat.divInt 3 2), ("y", -2)]⟩

end SimWatch

namespace Threshold

/-- A rule with a 60-second cooldown firing on any single violation of
`value < 0`. -/
def c1rule : ThresholdRule :=
  ⟨"r", ".*", 0, .lt, .warning, "t", 60, 1, true⟩

/-- Monitor state in which `r:m` last alerted at clock time 0. -/
def c1state : MonState := ⟨[("r:m", 0)], []⟩

/-- A rule requiring two consecutive violations of `value < 0`. -/
def c3rule : ThresholdRule :=
  ⟨"r", ".*", 0, .lt, .warning, "t", 60, 2, true⟩

/-- A rule requiring two consecutive violations, 60-second cooldown. -/
def c9rule : ThresholdRule :=
  ⟨"r", ".*", 0, .lt, .warning, "t", 60, 2, true⟩

/-- State for `r:m`: one accumulated violation, last alert at time 10. -/
def c9state : MonState := ⟨[("r:m", 10)], [("r:m", 1)]⟩

end Threshold

namespace SimWatch

theorem parseFloat?_empty : parseFloat? "" = none := rfl

theorem parseFloat?_ne_empty (s : String) (q : ℚ) (h : parseFloat? s = some q) : s ≠ "" := by
  intro hs
  subst hs
  rw [parseFloat?_empty] at h
  exact Option.noConfusion h

/-- Bridge: `nsTime` computes `int(timestamp * 1e9)`. -/
theorem nsTime_eq (ts : ℚ) : nsTime ts = truncInt (ts * 1000000000) := by
  unfold nsTime
  congr 1
  rw [Rat.divInt_eq_div]
  push_cast
  rw [mul_div_right_comm, Rat.num_div_den]

/-- Bridge: `tenth` computes `value * 0.1` exactly. -/
theorem tenth_eq (q : ℚ) : tenth q = q * (1 / 10) := by
  unfold tenth
  rw [Rat.divInt_eq_div]
  push_cast
  rw [div_mul_eq_div_div, Rat.num_div_den]
  ring

theorem rowGet?_mem (row : Row) (name v : String) (h : rowGet? row name = some v) :
    (name, v) ∈ row := by
  unfold rowGet? at h
  cases hf : List.find? (fun p => p.1 == name) row with
  | none => rw [hf] at h; simp at h
  | some p =>
      rw [hf] at h
      have hp := List.find?_some hf
      have hm := List.mem_of_find?_eq_some hf
      cases p with
      | mk a b =>
          simp at hp h
          rw [← hp, ← h]
          exact hm

theorem rowKey?_inv (bn : String) (row : Row) (k : DedupKey) (hk : rowKey? bn row = some k) :
    ∃ tsS ts ueS ue, rowGet? row "timestamp" = some tsS ∧ parseFloat? tsS = some ts ∧
      rowGet? row "ueImsiComplete" = some ueS ∧ parseInt? ueS = some ue ∧
      k = (ts, ue, get_file_type bn) := by
  unfold rowKey? at hk
  cases h1 : rowGet? row "timestamp" with
  | none => simp [h1] at hk
  | some tsS =>
      simp only [h1] at hk
      cases h2 : parseFloat? tsS with
      | none => simp [h2] at hk
      | some ts =>
          simp only [h2] at hk
          cases h3 : rowGet? row "ueImsiComplete" with
          | none => simp [h3] at hk
          | some ueS =>
              simp only [h3] at hk
              cases h4 : parseInt? ueS with
              | none => simp [h4] at hk
              | some ue =>
                  simp only [h4, Option.map_some', Option.some.injEq] at hk
                  exact ⟨tsS, ts, ueS, ue, rfl, h2, rfl, h4, hk.symm⟩

theorem stepRow_reduce (bn : String) (s : Finset DedupKey) (row : Row) (o : List Bool)
    (tsS : String) (ts : ℚ) (ueS : String) (ue : ℤ)
    (h1 : rowGet? row "timestamp" = some tsS) (h2 : parseFloat? tsS = some ts)
    (h3 : rowGet? row "ueImsiComplete" = some ueS) (h4 : parseInt? ueS = some ue) :
    stepRow bn s row o =
      if (ts, ue, get_file_type bn) ∈ s then (⟨s, [], none⟩, o)
      else
        match buildPoints ts ue (cellIdOf bn) (determine_layer (get_file_type bn)) row none with
        | .error e => (⟨s, [], some e⟩, o)
        | .ok pts =>
            if pts = [] then (⟨s, [], none⟩, o)
            else if o.headD true then
              (⟨insert (ts, ue, get_file_type bn) s, [pts], none⟩, o.tail)
            else (⟨s, [], some .writeFailed⟩, o.tail) := by
  unfold stepRow
  simp only [h1, h2, h3, h4]

theorem rowPointsOf_reduce (bn : String) (row : Row)
    (tsS : String) (ts : ℚ) (ueS : String) (ue : ℤ)
    (h1 : rowGet? row "timestamp" = some tsS) (h2 : parseFloat? tsS = some ts)
    (h3 : rowGet? row "ueImsiComplete" = some ueS) (h4 : parseInt? ueS = some ue) :
    rowPointsOf bn row =
      buildPoints ts ue (cellIdOf bn) (determine_layer (get_file_type bn)) row none := by
  unfold rowPointsOf
  simp only [h1, h2, h3, h4]

/-- A row whose dedup key is already consumed is skipped whole: state,
write log and oracle untouched, no exception. -/
theorem stepRow_skip (bn : String) (s : Finset DedupKey) (row : Row) (o : List Bool)
    (k : DedupKey) (hk : rowKey? bn row = some k) (hmem : k ∈ s) :
    stepRow bn s row o = (⟨s, [], none⟩, o) := by
  obtain ⟨tsS, ts, ueS, ue, h1, h2, h3, h4, hkey⟩ := rowKey?_inv bn row k hk
  rw [stepRow_reduce bn s row o tsS ts ueS ue h1 h2 h3 h4, if_pos (hkey ▸ hmem)]

theorem stepRow_build_error (bn : String) (s : Finset DedupKey) (row : Row) (o : List Bool)
    (k : DedupKey) (e : ProcError) (hk : rowKey? bn row = some k) (hmem : k ∉ s)
    (he : rowPointsOf bn row = .error e) :
    stepRow bn s row o = (⟨s, [], some e⟩, o) := by
  obtain ⟨tsS, ts, ueS, ue, h1, h2, h3, h4, hkey⟩ := rowKey?_inv bn row k hk
  rw [rowPointsOf_reduce bn row tsS ts ueS ue h1 h2 h3 h4] at he
  rw [stepRow_reduce bn s row o tsS ts ueS ue h1 h2 h3 h4, if_neg (hkey ▸ hmem), he]

/-- A fresh row with a non-empty batch: on write success the key is
inserted and the batch logged; on write failure nothing is recorded and
the exception escapes. -/
theorem stepRow_write (bn : String) (s : Finset DedupKey) (row : Row) (o : List Bool)
    (k : DedupKey) (pts : List Point) (hk : rowKey? bn row = some k) (hmem : k ∉ s)
    (hp : rowPointsOf bn row = .ok pts) (hne : pts ≠ []) :
    stepRow bn s row (true :: o) = (⟨insert k s, [pts], none⟩, o) ∧
    stepRow bn s row (false :: o) = (⟨s, [], some .writeFailed⟩, o) := by
  obtain ⟨tsS, ts, ueS, ue, h1, h2, h3, h4, hkey⟩ := rowKey?_inv bn row k hk
  rw [rowPointsOf_reduce bn row tsS ts ueS ue h1 h2 h3 h4] at hp
  subst hkey
  constructor
  · rw [stepRow_reduce bn s row (true :: o) tsS ts ueS ue h1 h2 h3 h4, if_neg hmem, hp]
    simp [hne]
  · rw [stepRow_reduce bn s row (false :: o) tsS ts ueS ue h1 h2 h3 h4, if_neg hmem, hp]
    simp [hne]

theorem stepRow_consumed_mono (bn : String) (s : Finset DedupKey) (row : Row) (o : List Bool) :
    s ⊆ (stepRow bn s row o).1.consumed := by
  unfold stepRow
  cases h1 : rowGet? row "timestamp" with
  | none => simp [h1]
  | some tsS =>
      simp only [h1]
      cases h2 : parseFloat? tsS with
      | none => simp [h2]
      | some ts =>
          simp only [h2]
          cases h3 : rowGet? row "ueImsiComplete" with
          | none => simp [h3]
          | some ueS =>
              simp only [h3]
              cases h4 : parseInt? ueS with
              | none => simp [h4]
              | some ue =>
                  simp only [h4]
                  by_cases hmem : (ts, ue, get_file_type bn) ∈ s
                  · simp [hmem]
                  · simp only [hmem, if_false]
                    cases hb : buildPoints ts ue (cellIdOf bn)
                        (determine_layer (get_file_type bn)) row none with
                    | error e => simp [hb]
                    | ok pts =>
                        simp only [hb]
                        by_cases hne : pts = []
                        · simp [hne]
                        · by_cases ho : o.head?.getD true = true
                          · simp [hne, ho, Finset.subset_insert]
                          · simp [hne, ho]

/-- A non-empty cell somewhere in the columns guarantees a successful
batch is non-empty (every processed row has at least its `timestamp`
column, so a successfully processed row always attempts a write). -/
theorem buildPoints_ne_nil (ts : ℚ) (ue : ℤ) (cid layer : String) :
    ∀ (cols : List (String × String)) (cn : Option String) (pts : List Point)
      (colName cell : String), (colName, cell) ∈ cols → cell ≠ "" →
      buildPoints ts ue cid layer cols cn = .ok pts → pts ≠ [] := by
  intro cols
  induction cols with
  | nil => intro cn pts colName cell hm; simp at hm
  | cons hd tl ih =>
      intro cn pts colName cell hm hcell hb
      cases hd with
      | mk hc hv =>
          by_cases hhd : hv = ""
          · subst hhd
            simp only [buildPoints, if_pos rfl] at hb
            rcases List.mem_cons.mp hm with heq | htl
            · exact absurd (by simpa using congrArg Prod.snd heq) hcell
            · exact ih cn pts colName cell htl hcell hb
          · simp only [buildPoints, if_neg hhd] at hb
            cases hpf : parseFloat? hv with
            | none => rw [hpf] at hb; simp at hb
            | some v0 =>
                rw [hpf] at hb
                simp only [Except.map] at hb
                cases hrec : buildPoints ts ue cid layer tl
                    (if strContains (parse_metric_name hc).1 "neighbor_cell_id" ||
                        strContains hc "L3 neigh Id"
                     then some (toString (truncInt (if strContains (parse_metric_name hc).1 "pdcp_delay" ||
                        strContains hc "PdcpSduDelayDl" then tenth v0 else v0)))
                     else cn) with
                | error e => rw [hrec] at hb; simp at hb
                | ok ps =>
                    rw [hrec] at hb
                    simp at hb
                    rw [← hb]
                    simp

theorem stepRow_ok_key (bn : String) (s : Finset DedupKey) (row : Row) (o : List Bool)
    (h : (stepRow bn s row o).1.err = none) :
    ∃ k, rowKey? bn row = some k ∧ k ∈ (stepRow bn s row o).1.consumed := by
  unfold stepRow at h ⊢
  unfold rowKey?
  cases h1 : rowGet? row "timestamp" with
  | none => rw [h1] at h; simp at h
  | some tsS =>
      simp only [h1] at h ⊢
      cases h2 : parseFloat? tsS with
      | none => rw [h2] at h; simp at h
      | some ts =>
          simp only [h2] at h ⊢
          cases h3 : rowGet? row "ueImsiComplete" with
          | none => rw [h3] at h; simp at h
          | some ueS =>
              simp only [h3] at h ⊢
              cases h4 : parseInt? ueS with
              | none => rw [h4] at h; simp at h
              | some ue =>
                  simp only [h4] at h ⊢
                  refine ⟨(ts, ue, get_file_type bn), rfl, ?_⟩
                  by_cases hmem : (ts, ue, get_file_type bn) ∈ s
                  · simp [hmem]
                  · simp only [hmem, if_false] at h ⊢
                    cases hb : buildPoints ts ue (cellIdOf bn)
                        (determine_layer (get_file_type bn)) row none with
                    | error e => rw [hb] at h; simp at h
                    | ok pts =>
                        have hne : pts ≠ [] :=
                          buildPoints_ne_nil ts ue (cellIdOf bn)
                            (determine_layer (get_file_type bn)) row none pts "timestamp" tsS
                            (rowGet?_mem row "timestamp" tsS h1)
                            (parseFloat?_ne_empty tsS ts h2) hb
                        simp only [hne, if_false] at h ⊢
                        by_cases ho : o.head?.getD true = true
                        · simp [ho]
                        · rw [hb] at h
                          simp [ho, hne] at h

theorem runRows_consumed_mono (bn : String) :
    ∀ (rows : List Row) (s : Finset DedupKey) (o : List Bool),
      s ⊆ (runRows bn s rows o).consumed := by
  intro rows
  induction rows with
  | nil => intro s o; simp [runRows]
  | cons row rest ih =>
      intro s o
      simp only [runRows]
      cases he : (stepRow bn s row o).1.err with
      | some e => exact stepRow_consumed_mono bn s row o
      | none =>
          exact (stepRow_consumed_mono bn s row o).trans
            (ih (stepRow bn s row o).1.consumed (stepRow bn s row o).2)

/-- After a run that raised no exception, every row's dedup key is in the
final consumed set. -/
theorem runRows_ok_keys (bn : String) :
    ∀ (rows : List Row) (s : Finset DedupKey) (o : List Bool),
      (runRows bn s rows o).err = none →
      ∀ row ∈ rows, ∃ k, rowKey? bn row = some k ∧ k ∈ (runRows bn s rows o).consumed := by
  intro rows
  induction rows with
  | nil => intro s o hok row hm; simp at hm
  | cons row0 rest ih =>
      intro s o hok row hm
      simp only [runRows] at hok ⊢
      cases he : (stepRow bn s row0 o).1.err with
      | some e => rw [he] at hok; simp at hok
      | none =>
          rw [he] at hok
          simp only at hok ⊢
          rcases List.mem_cons.mp hm with heq | htl
          · subst heq
            obtain ⟨k, hk, hks⟩ := stepRow_ok_key bn s row o he
            exact ⟨k, hk, runRows_consumed_mono bn rest _ _ hks⟩
          · exact ih (stepRow bn s row0 o).1.consumed (stepRow bn s row0 o).2 hok row htl

/-- A run in which every row's key is already consumed does nothing. -/
theorem runRows_all_skipped (bn : String) :
    ∀ (rows : List Row) (s : Finset DedupKey) (o : List Bool),
      (∀ row ∈ rows, ∃ k, rowKey? bn row = some k ∧ k ∈ s) →
      runRows bn s rows o = ⟨s, [], none⟩ := by
  intro rows
  induction rows with
  | nil => intro s o hall; simp [runRows]
  | cons row0 rest ih =>
      intro s o hall
      obtain ⟨k, hk, hks⟩ := hall row0 (List.mem_cons_self row0 rest)
      simp only [runRows, stepRow_skip bn s row0 o k hk hks]
      rw [ih s o (fun row hm => hall row (List.mem_cons_of_mem row0 hm))]
      simp

/-- One point per non-empty column: the length of a successful batch. -/
theorem buildPoints_length (ts : ℚ) (ue : ℤ) (cid layer : String) :
    ∀ (cols : List (String × String)) (cn : Option String) (pts : List Point),
      buildPoints ts ue cid layer cols cn = .ok pts →
      pts.length = cols.countP (fun p => p.2 != "") := by
  intro cols
  induction cols with
  | nil =>
      intro cn pts hb
      simp only [buildPoints] at hb
      simp at hb
      simp [← hb]
  | cons hd tl ih =>
      intro cn pts hb
      cases hd with
      | mk hc hv =>
          by_cases hhd : hv = ""
          · subst hhd
            simp only [buildPoints, if_pos rfl] at hb
            rw [ih _ pts hb]
            simp [List.countP_cons]
          · simp only [buildPoints, if_neg hhd] at hb
            cases hpf : parseFloat? hv with
            | none => rw [hpf] at hb; simp at hb
            | some v0 =>
                rw [hpf] at hb
                simp only [Except.map] at hb
                cases hrec : buildPoints ts ue cid layer tl
                    (if strContains (parse_metric_name hc).1 "neighbor_cell_id" ||
                        strContains hc "L3 neigh Id"
                     then some (toString (truncInt (if strContains (parse_metric_name hc).1 "pdcp_delay" ||
                        strContains hc "PdcpSduDelayDl" then tenth v0 else v0)))
                     else cn) with
                | error e => rw [hrec] at hb; simp at hb
                | ok ps =>
                    rw [hrec] at hb
                    simp at hb
                    rw [← hb, List.length_cons, ih _ ps hrec, List.countP_cons]
                    simp [hhd]

/-- The recursive mapping scan agrees with a `find?`-style first-match
description of the table lookup. -/
theorem findMapped_eq (l : List (String × String)) (fieldName : String) :
    findMapped l fieldName =
      (List.find? (fun p => strContains fieldName p.1) l).map Prod.snd := by
  induction l with
  | nil => simp [findMapped]
  | cons hd tl ih =>
      cases hd with
      | mk oldN newN =>
          by_cases h : strContains fieldName oldN
          · simp [findMapped, h, List.find?]
          · simp [findMapped, h, List.find?, ih]

end SimWatch

namespace Threshold

theorem lookupA_setA_self {α : Type} (l : List (String × α)) (k : String) (v : α) :
    lookupA (setA l k v) k = some v := by
  induction l with
  | nil => simp [setA, lookupA]
  | cons p rest ih =>
      by_cases h : p.1 = k
      · simp [setA, h, lookupA]
      · simp only [setA]
        rw [if_neg h]
        simp only [lookupA, List.find?] at ih ⊢
        rw [show (p.1 == k) = false by simp [h]]
        exact ih

end Threshold

/-- C1: the claim states that, with a prior alert stamped, a violating
observation that reaches `consecutiveViolations` fires exactly when
elapsed time since `lastAlertAt` is at least `cooldownSeconds`.  The code
compares `(now - last_alert).seconds` — the `timedelta` seconds
COMPONENT, i.e. the elapsed time modulo 86400 with whole days discarded —
against the cooldown, so at elapsed 86405 s ≥ 60 s cooldown no alert
fires (while at elapsed 60 s one does): the code contradicts the clear
intent (`total_seconds` was meant). -/
theorem Threshold.c1_cooldown_day_wrap :
    (86405 : ℤ) - 0 ≥ Threshold.c1rule.cooldownSeconds ∧
    Threshold.violated Threshold.c1rule.comparison (-1) Threshold.c1rule.threshold = true ∧
    Threshold.lookupA Threshold.c1state.lastAlertTime
      (Threshold.c1rule.name ++ ":" ++ "m") = some 0 ∧
    Threshold.c1rule.consecutiveViolations = 1 ∧
    (Threshold.obsStep Threshold.c1rule Threshold.c1state "m" [] (-1) 86405).2 = none ∧
    (Threshold.obsStep Threshold.c1rule Threshold.c1state "m" [] (-1) 60).2.isSome = true := by
  decide

/-- C2: a metric row whose dedup key is already consumed is skipped
entirely — no points are built or written and the consumed set and write
oracle are untouched — and, consequently, re-delivering a file whose run
completed without exception writes nothing and changes nothing. -/
theorem SimWatch.c2_consumed_key_skip_idempotent :
    (∀ (bn : String) (s : Finset SimWatch.DedupKey) (row : SimWatch.Row) (o : List Bool)
        (k : SimWatch.DedupKey),
        SimWatch.rowKey? bn row = some k → k ∈ s →
        SimWatch.stepRow bn s row o = (⟨s, [], none⟩, o)) ∧
    (∀ (bn : String) (s : Finset SimWatch.DedupKey) (rows : List SimWatch.Row) (o o2 : List Bool),
        (SimWatch.runRows bn s rows o).err = none →
        SimWatch.runRows bn (SimWatch.runRows bn s rows o).consumed rows o2 =
          ⟨(SimWatch.runRows bn s rows o).consumed, [], none⟩) := by
  constructor
  · exact SimWatch.stepRow_skip
  · intro bn s rows o o2 herr
    exact SimWatch.runRows_all_skipped bn rows _ o2 (SimWatch.runRows_ok_keys bn rows s o herr)

theorem SimWatch.c2_witness :
    SimWatch.stepRow "cu-up-cell-2.txt" {SimWatch.sampleKey} SimWatch.sampleRow [false] =
      (⟨{SimWatch.sampleKey}, [], none⟩, [false]) ∧
    SimWatch.runRows "cu-up-cell-2.txt"
      (SimWatch.runRows "cu-up-cell-2.txt" ∅ [SimWatch.sampleRow] [true]).consumed
      [SimWatch.sampleRow] [] =
      ⟨(SimWatch.runRows "cu-up-cell-2.txt" ∅ [SimWatch.sampleRow] [true]).consumed, [], none⟩ :=
  ⟨SimWatch.c2_consumed_key_skip_idempotent.1 "cu-up-cell-2.txt" {SimWatch.sampleKey}
      SimWatch.sampleRow [false] SimWatch.sampleKey (by decide) (by decide),
   SimWatch.c2_consumed_key_skip_idempotent.2 "cu-up-cell-2.txt" ∅ [SimWatch.sampleRow]
      [true] [] (by decide)⟩

/-- C3 counterexample: the violation state is keyed by rule name and
measurement name only — the tag set is NOT part of the key.  With
`consecutiveViolations = 2`, one violating observation on tag-set
`ue_id=1` followed by one on tag-set `ue_id=2` of the same measurement
fires an alert carrying tags `ue_id=2`, although that tag-set has seen
only a single violation; under the claim's per-tag-set state no alert
could fire. -/
theorem Threshold.c3_shared_state_counterexample :
    Threshold.c3rule.consecutiveViolations = 2 ∧
    ((Threshold.check_rule Threshold.c3rule ⟨[], []⟩
        [("m", [("ue_id", "1")], -1), ("m", [("ue_id", "2")], -1)] 100).2.map
      Threshold.Alert.tags) = [[("ue_id", "2")]] := by
  decide

/-- C3 (amended): the per-observation state transition is keyed by rule
name + measurement only; the observation's tag set has no influence on
the updated state or on whether an alert fires, so all tag-sets of one
measurement share a single violation count and `lastAlertAt`. -/
theorem Threshold.c3_state_ignores_tags (rule : Threshold.ThresholdRule)
    (st : Threshold.MonState) (m : String) (tagsA tagsB : List (String × String))
    (v : ℚ) (now : ℤ) :
    (Threshold.obsStep rule st m tagsA v now).1 = (Threshold.obsStep rule st m tagsB v now).1 ∧
    ((Threshold.obsStep rule st m tagsA v now).2.isSome =
      (Threshold.obsStep rule st m tagsB v now).2.isSome) := by
  unfold Threshold.obsStep
  by_cases hv : Threshold.violated rule.comparison v rule.threshold
  · simp only [hv, if_true]
    by_cases hc : rule.consecutiveViolations ≤
        (Threshold.lookupA st.violationCount (rule.name ++ ":" ++ m)).getD 0 + 1
    · simp only [hc, if_true]
      cases hl : Threshold.lookupA st.lastAlertTime (rule.name ++ ":" ++ m) with
      | none => simp [hl]
      | some last =>
          by_cases hcool : rule.cooldownSeconds ≤ Threshold.tdSeconds (now - last)
          · simp [hl, hcool]
          · simp [hl, hcool]
    · simp [hc]
  · simp [hv]

/-- C4: for a fresh (unconsumed) key with a non-empty point batch, the
key is inserted into the consumed set exactly when `write_points`
succeeds; a failing write leaves the consumed set unchanged and lets the
exception escape, so the row stays eligible for re-delivery. -/
theorem SimWatch.c4_consume_only_after_write (bn : String) (s : Finset SimWatch.DedupKey)
    (row : SimWatch.Row) (o : List Bool) (k : SimWatch.DedupKey) (pts : List SimWatch.Point)
    (hk : SimWatch.rowKey? bn row = some k) (hmem : k ∉ s)
    (hp : SimWatch.rowPointsOf bn row = .ok pts) (hne : pts ≠ []) :
    SimWatch.stepRow bn s row (true :: o) = (⟨insert k s, [pts], none⟩, o) ∧
    SimWatch.stepRow bn s row (false :: o) =
      (⟨s, [], some SimWatch.ProcError.writeFailed⟩, o) :=
  SimWatch.stepRow_write bn s row o k pts hk hmem hp hne

theorem SimWatch.c4_witness :
    SimWatch.stepRow "cu-up-cell-2.txt" ∅ SimWatch.sampleRow [true] =
      (⟨insert SimWatch.sampleKey ∅,
        [(SimWatch.rowPointsOf "cu-up-cell-2.txt" SimWatch.sampleRow).toOption.getD []],
        none⟩, []) ∧
    SimWatch.stepRow "cu-up-cell-2.txt" ∅ SimWatch.sampleRow [false] =
      (⟨∅, [], some SimWatch.ProcError.writeFailed⟩, []) :=
  SimWatch.c4_consume_only_after_write "cu-up-cell-2.txt" ∅ SimWatch.sampleRow []
    SimWatch.sampleKey
    ((SimWatch.rowPointsOf "cu-up-cell-2.txt" SimWatch.sampleRow).toOption.getD [])
    (by decide) (by decide) (by decide) (by decide)

/-- C5 counterexample: in a row with five populated columns of which the
fourth ("abc") is malformed, the claim predicts four points written.  The
code instead raises `ValueError` from `float()`: processing the event
aborts, nothing is written for the row, and its key is not consumed. -/
theorem SimWatch.c5_malformed_aborts_counterexample :
    SimWatch.c5row.countP (fun p => p.2 != "") = 5 ∧
    SimWatch.parseFloat? "abc" = none ∧
    SimWatch.runRows "cu-up-cell-2.txt" ∅ [SimWatch.c5row] [] =
      ⟨∅, [], some (SimWatch.ProcError.badFloat "abc")⟩ := by
  decide

/-- C5 (amended): a malformed (non-numeric, non-empty) cell in any column
aborts the whole row: the build error escapes, no write occurs and the
consumed set is unchanged; only EMPTY cells are skipped, and a non-empty
unparsable cell is itself what raises. -/
theorem SimWatch.c5_malformed_aborts_row :
    (∀ (bn : String) (s : Finset SimWatch.DedupKey) (row : SimWatch.Row) (o : List Bool)
        (k : SimWatch.DedupKey) (e : SimWatch.ProcError),
        SimWatch.rowKey? bn row = some k → k ∉ s →
        SimWatch.rowPointsOf bn row = .error e →
        SimWatch.stepRow bn s row o = (⟨s, [], some e⟩, o)) ∧
    (∀ (ts : ℚ) (ue : ℤ) (cid layer colName : String)
        (rest : List (String × String)) (cn : Option String),
        SimWatch.buildPoints ts ue cid layer ((colName, "") :: rest) cn =
          SimWatch.buildPoints ts ue cid layer rest cn) ∧
    (∀ (ts : ℚ) (ue : ℤ) (cid layer colName cell : String)
        (rest : List (String × String)) (cn : Option String),
        cell ≠ "" → SimWatch.parseFloat? cell = none →
        SimWatch.buildPoints ts ue cid layer ((colName, cell) :: rest) cn =
          .error (SimWatch.ProcError.badFloat cell)) := by
  refine ⟨SimWatch.stepRow_build_error, ?_, ?_⟩
  · intro ts ue cid layer colName rest cn
    simp [SimWatch.buildPoints]
  · intro ts ue cid layer colName cell rest cn hcell hpf
    simp only [SimWatch.buildPoints, if_neg hcell]
    rw [hpf]

theorem SimWatch.c5_witness :
    SimWatch.stepRow "cu-up-cell-2.txt" ∅ SimWatch.c5row [] =
      (⟨∅, [], some (SimWatch.ProcError.badFloat "abc")⟩, []) ∧
    SimWatch.buildPoints 1 7 "2" "cu_up" [("a", ""), ("b", "3")] none =
      SimWatch.buildPoints 1 7 "2" "cu_up" [("b", "3")] none ∧
    SimWatch.buildPoints 1 7 "2" "cu_up" [("b", "abc")] none =
      .error (SimWatch.ProcError.badFloat "abc") :=
  ⟨SimWatch.c5_malformed_aborts_row.1 "cu-up-cell-2.txt" ∅ SimWatch.c5row []
      ((1 : ℚ), (7 : ℤ), (0 : ℤ)) (SimWatch.ProcError.badFloat "abc")
      (by decide) (by decide) (by decide),
   SimWatch.c5_malformed_aborts_row.2.1 1 7 "2" "cu_up" "a" [("b", "3")] none,
   SimWatch.c5_malformed_aborts_row.2.2 1 7 "2" "cu_up" "b" "abc" [] none
      (by decide) (by decide)⟩

/-- C6 counterexample: `du-cell-1.txt` matches the watch glob
`du-cell-*.txt` but none of the `_get_file_type` regexes (ordinal -1).
The claim predicts rejection with a warning and no write; the code
instead processes the event normally — it writes the row's batch, raises
nothing, consumes the key `(1, 7, -1)`, and there is no logging call on
this path at all. -/
theorem SimWatch.c6_unmatched_processed_counterexample :
    SimWatch.get_file_type "du-cell-1.txt" = -1 ∧
    (SimWatch.on_modified ∅ "du-cell-1.txt" [SimWatch.sampleRow] [true]).writes.length = 1 ∧
    (SimWatch.on_modified ∅ "du-cell-1.txt" [SimWatch.sampleRow] [true]).err = none ∧
    (SimWatch.on_modified ∅ "du-cell-1.txt" [SimWatch.sampleRow] [true]).consumed =
      {((1 : ℚ), (7 : ℤ), (-1 : ℤ))} := by
  decide

/-- C6 (amended): a non-position file whose name matches no source-type
regex is NOT rejected: it is processed with sourceType ordinal `-1` and
layer `"unknown"`, and its rows' batches are written exactly as for a
recognised file. -/
theorem SimWatch.c6_unmatched_still_processed (bn : String) (s : Finset SimWatch.DedupKey)
    (row : SimWatch.Row) (o : List Bool) (k : SimWatch.DedupKey) (pts : List SimWatch.Point)
    (hft : SimWatch.get_file_type bn = -1) (hk : SimWatch.rowKey? bn row = some k)
    (hmem : k ∉ s) (hp : SimWatch.rowPointsOf bn row = .ok pts) (hne : pts ≠ []) :
    SimWatch.determine_layer (SimWatch.get_file_type bn) = "unknown" ∧
    SimWatch.stepRow bn s row (true :: o) = (⟨insert k s, [pts], none⟩, o) :=
  ⟨by rw [hft]; rfl, (SimWatch.stepRow_write bn s row o k pts hk hmem hp hne).1⟩

theorem SimWatch.c6_witness :
    SimWatch.determine_layer (SimWatch.get_file_type "du-cell-1.txt") = "unknown" ∧
    SimWatch.stepRow "du-cell-1.txt" ∅ SimWatch.sampleRow [true] =
      (⟨insert ((1 : ℚ), (7 : ℤ), (-1 : ℤ)) ∅,
        [(SimWatch.rowPointsOf "du-cell-1.txt" SimWatch.sampleRow).toOption.getD []], none⟩,
       []) :=
  SimWatch.c6_unmatched_still_processed "du-cell-1.txt" ∅ SimWatch.sampleRow []
    ((1 : ℚ), (7 : ℤ), (-1 : ℤ))
    ((SimWatch.rowPointsOf "du-cell-1.txt" SimWatch.sampleRow).toOption.getD [])
    (by decide) (by decide) (by decide) (by decide) (by decide)

/-- C7 counterexample: a row whose three non-empty columns include the
serving-SINR column `L3 serving SINR (dB)` yields exactly three points —
one per column — with exactly one SINR point and no `_Serv_`-prefixed
measurement anywhere; the claim's second derived "serving" point does not
exist in the code. -/
theorem SimWatch.c7_single_point_counterexample :
    SimWatch.findMapped SimWatch.METRIC_MAPPING "L3 serving SINR (dB)" =
      some "sinr_serving_l3" ∧
    ((SimWatch.rowPointsOf "cu-cp-cell-2.txt" SimWatch.c7row).toOption.getD []).length = 3 ∧
    ((SimWatch.rowPointsOf "cu-cp-cell-2.txt" SimWatch.c7row).toOption.getD []).countP
      (fun p => SimWatch.strContains p.measurement "sinr") = 1 ∧
    ((SimWatch.rowPointsOf "cu-cp-cell-2.txt" SimWatch.c7row).toOption.getD []).countP
      (fun p => SimWatch.strContains p.measurement "_Serv_") = 0 := by
  decide

/-- C7 (amended): every non-empty column of a successfully processed row
produces exactly one point — the serving-SINR column included; no column
emits a second derived point. -/
theorem SimWatch.c7_one_point_per_column (ts : ℚ) (ue : ℤ) (cid layer : String)
    (cols : List (String × String)) (cn : Option String) (pts : List SimWatch.Point)
    (hb : SimWatch.buildPoints ts ue cid layer cols cn = .ok pts) :
    pts.length = cols.countP (fun p => p.2 != "") :=
  SimWatch.buildPoints_length ts ue cid layer cols cn pts hb

theorem SimWatch.c7_witness :
    ((SimWatch.rowPointsOf "cu-cp-cell-2.txt" SimWatch.c7row).toOption.getD []).length =
      SimWatch.c7row.countP (fun p => p.2 != "") :=
  SimWatch.c7_one_point_per_column 1 7 "2" "cu_cp" SimWatch.c7row none
    ((SimWatch.rowPointsOf "cu-cp-cell-2.txt" SimWatch.c7row).toOption.getD []) (by decide)

/-- C8 counterexample: for the unmapped column name `Thp (Mbps)` the code
removes the parenthesised group and strips whitespace before slugifying,
returning `thp`; the claim's fallback — the normalised slug of the raw
column name — would be `thp_(mbps)`.  The two disagree. -/
theorem SimWatch.c8_paren_fallback_counterexample :
    (SimWatch.parse_metric_name "Thp (Mbps)").1 = "thp" ∧
    SimWatch.specSlugFallback "Thp (Mbps)" = "thp_(mbps)" ∧
    (SimWatch.parse_metric_name "Thp (Mbps)").1 ≠ SimWatch.specSlugFallback "Thp (Mbps)" := by
  decide

/-- C8 (amended): the canonicalizer returns the canonical name of the
first table entry whose raw substring occurs in the column name, or else
the normalised slug of the column name WITH parenthesised groups removed
and surrounding whitespace stripped, and pairs it with the category from
the fixed substring-priority classifier; as a pure function it is
trivially deterministic. -/
theorem SimWatch.c8_canonicalizer_amended (fieldName : String) :
    SimWatch.parse_metric_name fieldName = SimWatch.specParseAmended fieldName := by
  unfold SimWatch.parse_metric_name SimWatch.specParseAmended
  rw [SimWatch.findMapped_eq]
  cases h : List.find? (fun p => SimWatch.strContains fieldName p.1) SimWatch.METRIC_MAPPING with
  | none => simp
  | some p => simp

/-- C9: when a violating observation brings the count to at least
`consecutiveViolations` but the code's cooldown check (on the
`timedelta` seconds component) still fails, no alert fires, the count is
incremented — NOT reset — and `lastAlertAt` is untouched; consequently
the very next violating observation once the cooldown check passes fires
immediately, with no fresh accumulation of `consecutiveViolations`
violations. -/
theorem Threshold.c9_count_preserved_under_cooldown
    (rule : Threshold.ThresholdRule) (st : Threshold.MonState) (m : String)
    (tags : List (String × String)) (v w : ℚ) (now1 now2 last : ℤ)
    (hv : Threshold.violated rule.comparison v rule.threshold = true)
    (hw : Threshold.violated rule.comparison w rule.threshold = true)
    (hlast : Threshold.lookupA st.lastAlertTime (rule.name ++ ":" ++ m) = some last)
    (hcnt : rule.consecutiveViolations ≤
      (Threshold.lookupA st.violationCount (rule.name ++ ":" ++ m)).getD 0 + 1)
    (hlt : Threshold.tdSeconds (now1 - last) < rule.cooldownSeconds)
    (hge : rule.cooldownSeconds ≤ Threshold.tdSeconds (now2 - last)) :
    (Threshold.obsStep rule st m tags v now1).2 = none ∧
    (Threshold.obsStep rule st m tags v now1).1.lastAlertTime = st.lastAlertTime ∧
    Threshold.lookupA (Threshold.obsStep rule st m tags v now1).1.violationCount
      (rule.name ++ ":" ++ m) =
      some ((Threshold.lookupA st.violationCount (rule.name ++ ":" ++ m)).getD 0 + 1) ∧
    (Threshold.obsStep rule
      ((Threshold.obsStep rule st m tags v now1).1) m tags w now2).2.isSome = true := by
  have h1 : Threshold.obsStep rule st m tags v now1 =
      (⟨st.lastAlertTime, Threshold.setA st.violationCount (rule.name ++ ":" ++ m)
        ((Threshold.lookupA st.violationCount (rule.name ++ ":" ++ m)).getD 0 + 1)⟩, none) := by
    unfold Threshold.obsStep
    simp [hv, hcnt, hlast, not_le.mpr hlt]
  refine ⟨by rw [h1], by rw [h1],
    by rw [h1]; exact Threshold.lookupA_setA_self _ _ _, ?_⟩
  rw [h1]
  unfold Threshold.obsStep
  rw [hw]
  simp only [if_true, Threshold.lookupA_setA_self, Option.getD_some]
  rw [if_pos (le_trans hcnt (by omega))]
  simp [hlast, hge]

theorem Threshold.c9_witness :
    (Threshold.obsStep Threshold.c9rule Threshold.c9state "m" [] (-1) 30).2 = none ∧
    (Threshold.obsStep Threshold.c9rule Threshold.c9state "m" [] (-1) 30).1.lastAlertTime =
      Threshold.c9state.lastAlertTime ∧
    Threshold.lookupA
      (Threshold.obsStep Threshold.c9rule Threshold.c9state "m" [] (-1) 30).1.violationCount
      (Threshold.c9rule.name ++ ":" ++ "m") =
      some ((Threshold.lookupA Threshold.c9state.violationCount
        (Threshold.c9rule.name ++ ":" ++ "m")).getD 0 + 1) ∧
    (Threshold.obsStep Threshold.c9rule
      ((Threshold.obsStep Threshold.c9rule Threshold.c9state "m" [] (-1) 30).1)
      "m" [] (-1) 100).2.isSome = true :=
  Threshold.c9_count_preserved_under_cooldown Threshold.c9rule Threshold.c9state "m" []
    (-1) (-1) 30 100 10 (by decide) (by decide) (by decide) (by decide) (by decide) (by decide)

/-- C10: handling a `ue_positions.txt` event neither reads nor writes the
consumed-key set — the set is returned unchanged and the emitted batches
do not depend on it — every valid row's point is in the written output
when the write succeeds, and replaying the identical content writes the
identical batch again (its points are stored twice). -/
theorem SimWatch.c10_position_frame (s s2 : Finset SimWatch.DedupKey)
    (rows : List SimWatch.Row) (o : List Bool) :
    (SimWatch.on_modified s "ue_positions.txt" rows o).consumed = s ∧
    (SimWatch.on_modified s "ue_positions.txt" rows o).writes =
      (SimWatch.on_modified s2 "ue_positions.txt" rows o).writes ∧
    (SimWatch.on_modified (SimWatch.on_modified s "ue_positions.txt" rows o).consumed
      "ue_positions.txt" rows o).writes =
      (SimWatch.on_modified s "ue_positions.txt" rows o).writes ∧
    (∀ row ∈ rows, ∀ p, SimWatch.posPointOfRow row = some p →
      (SimWatch.on_modified s "ue_positions.txt" rows o).err = none →
      p ∈ (SimWatch.on_modified s "ue_positions.txt" rows o).writes.flatten) := by
  have hred : ∀ t : Finset SimWatch.DedupKey, SimWatch.on_modified t "ue_positions.txt" rows o =
      if rows.filterMap SimWatch.posPointOfRow = [] then ⟨t, [], none⟩
      else if o.headD true then ⟨t, [rows.filterMap SimWatch.posPointOfRow], none⟩
      else ⟨t, [], some .writeFailed⟩ := by
    intro t
    unfold SimWatch.on_modified
    rw [if_pos (show SimWatch.basename "ue_positions.txt" = "ue_positions.txt" from rfl)]
  by_cases hpts : rows.filterMap SimWatch.posPointOfRow = []
  · refine ⟨?_, ?_, ?_, ?_⟩ <;> simp only [hred, hpts, if_pos rfl]
    · rfl
    · rfl
    · rfl
    · intro row hm p hp hok
      exact absurd (hpts ▸ List.mem_filterMap.mpr ⟨row, hm, hp⟩) (List.not_mem_nil p)
  · by_cases ho : o.headD true
    · refine ⟨?_, ?_, ?_, ?_⟩ <;> simp only [hred, hpts, ho, if_neg, if_pos, if_true]
      · rfl
      · rfl
      · rfl
      · intro row hm p hp hok
        simp only [List.flatten]
        simp
        exact ⟨row, hm, hp⟩
    · refine ⟨?_, ?_, ?_, ?_⟩ <;> simp only [hred, hpts, ho, if_neg, if_pos, if_true]
      · rfl
      · rfl
      · rfl
      · intro row hm p hp hok
        simp at hok

theorem SimWatch.c10_witness :
    (SimWatch.on_modified {SimWatch.sampleKey} "ue_positions.txt" [SimWatch.posRow]
      []).consumed = {SimWatch.sampleKey} ∧
    SimWatch.posRowPoint ∈
      (SimWatch.on_modified {SimWatch.sampleKey} "ue_positions.txt" [SimWatch.posRow]
        []).writes.flatten :=
  ⟨(SimWatch.c10_position_frame {SimWatch.sampleKey} ∅ [SimWatch.posRow] []).1,
   (SimWatch.c10_position_frame {SimWatch.sampleKey} ∅ [SimWatch.posRow] []).2.2.2
     SimWatch.posRow (by decide) SimWatch.posRowPoint (by decide) (by decide)⟩
